import Mathlib

/-!
Verification of the OneType session-membership / exclusive-write-token
protocol (VS Code extension, `src/extension.ts`, networked Live Share
variant) and its file-lock variants, against its natural-language
specification.

The embedding below follows the networked variant of `extension.ts`
(the variant containing `idToUsername`, `watchMassNotif`, and the
`onDidChangePeers` handler).  TypeScript `string | null` fields are
modelled as `Option String`; a JavaScript `undefined` delivered in an
event payload is also modelled as `none` (the places where the
null/undefined distinction could matter are noted at the definitions).
The `Map<number, string>` attribution map is modelled as an association
list `List (Nat × String)`.
-/

namespace OneType

/-- The per-peer mutable state of the networked variant: the module-level
`let` bindings `inSession`, `host`, `editor`, `users`, `idToUsername`,
`lastEditErrorTime`, `myUsername`, `liveshare`, `myNotifier` in
`extension.ts`.  The transport handles `liveshare` and `myNotifier` are
opaque to the protocol and are modelled as `Option Nat` (absent or some
concrete handle). -/
@[ext] structure PeerState where
  inSession : Bool
  host : Option String
  editor : Option String
  users : List String
  idToUsername : List (Nat × String)
  lastEditErrorTime : Nat
  myUsername : Option String
  liveshare : Option Nat
  myNotifier : Option Nat
deriving DecidableEq, Repr

/-- The initial values of the module-level bindings (`inSession = false`,
all names `null`, empty roster and attribution map).  The `leave()`
helper in `extension.ts` resets every binding to exactly these values,
so it is also the post-`leave()` state. -/
def initState : PeerState :=
  { inSession := false
    host := none
    editor := none
    users := []
    idToUsername := []
    lastEditErrorTime := 0
    myUsername := none
    liveshare := none
    myNotifier := none }

/-- The state mutation performed by the success path of the
`onetype.hostSession` command: `myUsername = username; inSession = true;
host = editor = username; users = [username]` (the attribution map is
not touched). -/
def hostBootstrap (u : String) (s : PeerState) : PeerState :=
  { s with
    myUsername := some u
    inSession := true
    host := some u
    editor := some u
    users := [u] }

/-- The event classes whose handlers mutate Session State on a replica:
`join` (the host's `service.onNotify('join')` handler), `leave` and
`transferAccess` and `endSession` (the `watchMassNotif` handlers
installed by `initMassNotifs`).  In a `leave` event the `username` field
is `undefined` (here `none`) when the host's attribution-map lookup
found no entry, and the `id` field is the departed peer number; in a
`transferAccess` event both fields have the nullable type of
`myUsername` / `editor`. -/
inductive SEvent where
  | join (username : String)
  | leave (username : Option String) (id : Option Nat)
  | transfer (fromUser toUser : Option String)
  | endSession
deriving DecidableEq, Repr

/-- Applying one event to a replica's state, exactly as the corresponding
handler in `extension.ts` mutates the module-level bindings:

* `join u` (host handler): `if (!users.includes(u)) users.push(u)`;
* `leave u id`: `if (data.username === editor) editor = host;`
  then `users = users.filter(x => x !== data.username)` and
  `idToUsername.delete(data.id)`.  JavaScript `===` never equates the
  event's `string | undefined` username with a `null` editor, so the
  guard holds only when both sides are the same string;
* `transfer _ to`: `editor = data.to`;
* `endSession`: the `leave()` helper, which resets every binding to its
  initial value. -/
def applyEvent : SEvent → PeerState → PeerState
  | .join u, s =>
      if u ∈ s.users then s else { s with users := s.users ++ [u] }
  | .leave u id, s =>
      { s with
        editor := if u ≠ none ∧ u = s.editor then s.host else s.editor
        users := s.users.filter (fun x => decide (some x ≠ u))
        idToUsername := s.idToUsername.filter (fun p => decide (some p.1 ≠ id)) }
  | .transfer _ t, s => { s with editor := t }
  | .endSession, _ => initState

/-- Replaying a list of events against a replica, in delivery order. -/
def replay (s : PeerState) (es : List SEvent) : PeerState :=
  es.foldl (fun t e => applyEvent e t) s

-- Sanity examples: host bootstrap, a join and a transfer.
example :
    (replay (hostBootstrap "alice" initState) [.join "bob"]).users =
      ["alice", "bob"] := by decide

example :
    (replay (hostBootstrap "alice" initState)
      [.join "bob", .transfer (some "alice") (some "bob")]).editor =
      some "bob" := by decide

/-- Claim C4: for every Session State in which the leaving user's
username equals the current editor, applying the Leave Event for that
user yields a state whose `editor` equals `host`, with the leaving
username removed from `users` and its peer id removed from the
attribution map. -/
theorem leave_of_editor_reassigns_to_host (s : PeerState) (e : String)
    (pid : Nat) (hed : s.editor = some e) :
    (applyEvent (.leave (some e) (some pid)) s).editor = s.host ∧
    e ∉ (applyEvent (.leave (some e) (some pid)) s).users ∧
    ∀ v, (pid, v) ∉ (applyEvent (.leave (some e) (some pid)) s).idToUsername := by
  refine ⟨?_, ?_, ?_⟩
  · simp [applyEvent, hed]
  · simp [applyEvent, List.mem_filter]
  · intro v hv
    simp [applyEvent, List.mem_filter] at hv

/-- Witness for C4: a concrete two-user session in which the editor
"bob" (peer 2) leaves; the token reverts to the host "alice" and bob is
removed from the roster and the attribution map. -/
theorem leave_of_editor_reassigns_to_host_instance :
    let s : PeerState :=
      { inSession := true, host := some "alice", editor := some "bob"
        users := ["alice", "bob"], idToUsername := [(2, "bob")]
        lastEditErrorTime := 0, myUsername := some "alice"
        liveshare := some 1, myNotifier := some 1 }
    (applyEvent (.leave (some "bob") (some 2)) s).editor = some "alice" ∧
    "bob" ∉ (applyEvent (.leave (some "bob") (some 2)) s).users ∧
    ∀ v, (2, v) ∉ (applyEvent (.leave (some "bob") (some 2)) s).idToUsername :=
  leave_of_editor_reassigns_to_host _ "bob" 2 rfl

/-- Claim C5: every event handler is idempotent — applying the same
Join/Leave/Transfer/End event twice in a row yields the same state as
applying it once, as required by the relay's at-least-once delivery. -/
theorem applyEvent_idempotent (e : SEvent) (s : PeerState) :
    applyEvent e (applyEvent e s) = applyEvent e s := by
  cases e with
  | join u =>
      by_cases h : u ∈ s.users
      · simp [applyEvent, h]
      · simp [applyEvent, h]
  | leave u id =>
      simp only [applyEvent, PeerState.mk.injEq, List.filter_filter]
      refine ⟨trivial, trivial, ?_, ?_, ?_, trivial, trivial, trivial, trivial⟩
      · by_cases hc : u ≠ none ∧ u = (if u ≠ none ∧ u = s.editor then s.host else s.editor)
        · rw [if_pos hc]
          by_cases h : u ≠ none ∧ u = s.editor
          · rw [if_pos h]
          · rw [if_neg h] at hc
            exact absurd hc h
        · rw [if_neg hc]
      · simp
      · simp
  | transfer f t => rfl
  | endSession => rfl

/-! ### Claim C1: the membership invariant over reachable states -/

/-- The invariant claimed by the spec for Session States: while the
replica is in the session, the host and the current editor are both
members of `users`. -/
def stateInv (s : PeerState) : Prop :=
  s.inSession = true →
    (∃ h, s.host = some h ∧ h ∈ s.users) ∧
    (∃ e, s.editor = some e ∧ e ∈ s.users)

/-- Side condition on an event relative to the state it is applied to:
a `transferAccess` must name a target that is currently a member of
`users`, and a `leave` must not carry the host's username.  These are
exactly the conditions forced by `reachable_inv_counterexample` below:
without them the code does not maintain the membership invariant. -/
def wfEvent : SEvent → PeerState → Prop
  | .transfer _ t, s => ∃ v, t = some v ∧ v ∈ s.users
  | .leave u _, s => ∀ h, s.host = some h → u ≠ some h
  | _, _ => True

/-- A trace of events each of which is well formed in the state it is
applied to. -/
def WfTrace : PeerState → List SEvent → Prop
  | _, [] => True
  | s, e :: es => wfEvent e s ∧ WfTrace (applyEvent e s) es

lemma stateInv_applyEvent (e : SEvent) (s : PeerState)
    (hs : stateInv s) (he : wfEvent e s) : stateInv (applyEvent e s) := by
  cases e with
  | join u =>
      intro hin
      by_cases hu : u ∈ s.users
      · simpa [applyEvent, hu] using hs (by simpa [applyEvent, hu] using hin)
      · have hin' : s.inSession = true := by simpa [applyEvent, hu] using hin
        obtain ⟨⟨h, hh, hhu⟩, ⟨ed, hed, hedu⟩⟩ := hs hin'
        refine ⟨⟨h, ?_, ?_⟩, ⟨ed, ?_, ?_⟩⟩ <;>
          simp [applyEvent, hu, hh, hhu, hed, hedu]
  | leave u id =>
      intro hin
      have hin' : s.inSession = true := by simpa [applyEvent] using hin
      obtain ⟨⟨h, hh, hhu⟩, ⟨ed, hed, hedu⟩⟩ := hs hin'
      have hneh : u ≠ some h := he h hh
      have hhmem : h ∈ (applyEvent (.leave u id) s).users := by
        simp only [applyEvent, List.mem_filter]
        exact ⟨hhu, by simpa using fun hc => hneh hc.symm⟩
      constructor
      · exact ⟨h, by simpa [applyEvent] using hh, hhmem⟩
      · by_cases hc : u ≠ none ∧ u = s.editor
        · refine ⟨h, ?_, hhmem⟩
          simp only [applyEvent]
          rw [if_pos hc, hh]
        · refine ⟨ed, ?_, ?_⟩
          · simp only [applyEvent]
            rw [if_neg hc]
            exact hed
          · have hne : u ≠ some ed := by
              intro hu
              exact hc ⟨by simp [hu], by rw [hu, hed]⟩
            simp only [applyEvent, List.mem_filter]
            exact ⟨hedu, by simpa using fun hc2 => hne hc2.symm⟩
  | transfer f t =>
      intro hin
      have hin' : s.inSession = true := by simpa [applyEvent] using hin
      obtain ⟨⟨h, hh, hhu⟩, _⟩ := hs hin'
      obtain ⟨v, hv, hvu⟩ := he
      exact ⟨⟨h, by simpa [applyEvent] using hh, by simpa [applyEvent] using hhu⟩,
             ⟨v, by simpa [applyEvent] using hv, by simpa [applyEvent] using hvu⟩⟩
  | endSession =>
      intro hin
      simp [applyEvent, initState] at hin

lemma stateInv_replay (es : List SEvent) (s : PeerState)
    (hs : stateInv s) (ht : WfTrace s es) : stateInv (replay s es) := by
  induction es generalizing s with
  | nil => simpa [replay] using hs
  | cons e es ih =>
      obtain ⟨he, ht'⟩ := ht
      have : replay s (e :: es) = replay (applyEvent e s) es := by
        simp [replay]
      rw [this]
      exact ih _ (stateInv_applyEvent e s hs he) ht'

lemma stateInv_hostBootstrap (u : String) : stateInv (hostBootstrap u initState) := by
  intro _
  exact ⟨⟨u, rfl, by simp [hostBootstrap]⟩, ⟨u, rfl, by simp [hostBootstrap]⟩⟩

/-- Claim C1 (amended): for every state reached from the host-bootstrap
state by a sequence of applied join, leave, transferAccess and
endSession events — duplicated and reordered deliveries included — in
which every applied transferAccess names a target that is currently in
`users` and no applied leave carries the host's username, if the replica
is still in the session then the current editor is a member of `users`
and the host is a member of `users`. -/
theorem reachable_editor_host_in_users (u : String) (es : List SEvent)
    (ht : WfTrace (hostBootstrap u initState) es) :
    stateInv (replay (hostBootstrap u initState) es) :=
  stateInv_replay es _ (stateInv_hostBootstrap u) ht

/-- Witness for C1 (amended): a concrete well-formed trace — "bob"
joins, the token is transferred to "bob", "bob" leaves — after which the
invariant holds. -/
theorem reachable_editor_host_in_users_instance :
    stateInv (replay (hostBootstrap "alice" initState)
      [.join "bob", .transfer (some "alice") (some "bob"),
       .leave (some "bob") (some 2)]) :=
  reachable_editor_host_in_users "alice"
    [.join "bob", .transfer (some "alice") (some "bob"),
     .leave (some "bob") (some 2)]
    (by
      refine ⟨trivial, ⟨"bob", rfl, by decide⟩, ?_, trivial⟩
      intro h hh
      simp [hostBootstrap, initState, applyEvent] at hh
      subst hh
      decide)

/-- Counterexample to C1 as stated: the invariant is not maintained for
arbitrary reachable states.  Trace A (a duplicated `transferAccess`
redelivered after its target left) reaches an in-session state whose
editor "bob" is not in `users`; trace B (a `leave` carrying the host's
username) reaches an in-session state whose host "alice" is not in
`users`. -/
theorem reachable_inv_counterexample :
    ((replay (hostBootstrap "alice" initState)
        [.join "bob", .transfer (some "alice") (some "bob"),
         .leave (some "bob") (some 2),
         .transfer (some "alice") (some "bob")]).inSession = true ∧
     (replay (hostBootstrap "alice" initState)
        [.join "bob", .transfer (some "alice") (some "bob"),
         .leave (some "bob") (some 2),
         .transfer (some "alice") (some "bob")]).editor = some "bob" ∧
     "bob" ∉ (replay (hostBootstrap "alice" initState)
        [.join "bob", .transfer (some "alice") (some "bob"),
         .leave (some "bob") (some 2),
         .transfer (some "alice") (some "bob")]).users) ∧
    ((replay (hostBootstrap "alice" initState)
        [.join "bob", .leave (some "alice") (some 1)]).inSession = true ∧
     (replay (hostBootstrap "alice" initState)
        [.join "bob", .leave (some "alice") (some 1)]).host = some "alice" ∧
     "alice" ∉ (replay (hostBootstrap "alice" initState)
        [.join "bob", .leave (some "alice") (some 1)]).users) := by
  decide

/-! ### The coordinator commands of the networked variant -/

/-- Messages put on the wire by a command or handler (the payloads of
`sendMassNotif` / `service.notify`).  Field types follow the TypeScript
expressions that build them, so a field built from a nullable binding is
an `Option`. -/
inductive Msg where
  | join (username : Option String) (peerNumber : Option Nat)
  | initiateJoin (host : Option String) (editor : Option String)
      (users : List String) (idToUsername : List (Nat × String))
  | transferAccess (fromUser toUser : Option String)
  | requestAccessMsg (fromUser toUser : Option String)
  | leaveMsg (username : Option String) (id : Option Nat)
  | endSessionMsg
deriving DecidableEq, Repr

/-- The early-return outcomes of the commands, one constructor per
`showErrorMessage` call (`alreadyEditor` is the one outcome the code
surfaces with `showInformationMessage` rather than an error). -/
inductive Notice where
  | alreadyInSession      -- "Already in a session."
  | liveShareNotDetected  -- "Live Share not detected."
  | mustBeLiveShareHost   -- "You must be the host of the Live Share session ..."
  | mustBeLiveShareGuest  -- "You must be a guest of the Live Share session ..."
  | shareServiceFailed    -- "Failed to share RPC service."
  | hostNotStarted        -- "Host has not started OneType session."
  | notEditor             -- "Only the current editor can give access."
  | notInSession          -- "You must be in a session to use this command."
  | alreadyEditor         -- "You are already the editor." (informational)
deriving DecidableEq, Repr

/-- Result of running one command: the peer's state afterwards, the
messages it put on the wire, and the notice shown on an early return. -/
structure RunResult where
  state : PeerState
  sent : List Msg
  notice : Option Notice
deriving DecidableEq, Repr

/-- One invocation of a coordinator command, together with the responses
of its external collaborators: `ls` is what `vsls.getApi()` returned,
the role flags are the `liveshare.session.role` checks, `svc` / `proxy`
are the shared service handles, `uname` is the input-box response
(`none` = prompt abandoned), `pick` is the quick-pick response, and
`myId` is `liveshare.session.peerNumber`. -/
inductive Op where
  | hostSession (ls : Option Nat) (isHostRole : Bool) (svc : Option Nat)
      (uname : Option String)
  | joinSession (ls : Option Nat) (isGuestRole : Bool) (uname : Option String)
      (proxy : Option Nat) (myId : Option Nat)
  | giveAccess (pick : Option String)
  | requestAccess
  | forceAccess
  | leaveSession (myId : Option Nat)
  | endSession
deriving DecidableEq, Repr

/-- The seven `registerCommand` bodies, step for step.  Assignments made
before a failing check are preserved (`liveshare` is assigned as soon as
`vsls.getApi()` returns, `myNotifier` before the host's username prompt,
`myUsername` before the guest's proxy lookup), exactly as in the code.
`sendMassNotif`'s local self-dispatch on the host is not folded in here:
state mutation caused by a broadcast is `applyEvent` on each replica,
the sender included. -/
def runOp : Op → PeerState → RunResult
  | .hostSession ls isHostRole svc uname, s =>
      if s.inSession then ⟨s, [], some .alreadyInSession⟩
      else
        let s1 := { s with liveshare := ls }
        match ls with
        | none => ⟨s1, [], some .liveShareNotDetected⟩
        | some _ =>
          if !isHostRole then ⟨s1, [], some .mustBeLiveShareHost⟩
          else
            match svc with
            | none => ⟨s1, [], some .shareServiceFailed⟩
            | some h =>
              let s2 := { s1 with myNotifier := some h }
              match uname with
              | none => ⟨s2, [], none⟩
              | some u => ⟨hostBootstrap u s2, [], none⟩
  | .joinSession ls isGuestRole uname proxy myId, s =>
      if s.inSession then ⟨s, [], some .alreadyInSession⟩
      else
        let s1 := { s with liveshare := ls }
        match ls with
        | none => ⟨s1, [], some .liveShareNotDetected⟩
        | some _ =>
          if !isGuestRole then ⟨s1, [], some .mustBeLiveShareGuest⟩
          else
            match uname with
            | none => ⟨s1, [], none⟩
            | some u =>
              let s2 := { s1 with myUsername := some u }
              match proxy with
              | none => ⟨s2, [], some .hostNotStarted⟩
              | some p =>
                ⟨{ s2 with myNotifier := some p }, [.join (some u) myId], none⟩
  | .giveAccess pick, s =>
      if s.inSession = false ∨ s.myUsername ≠ s.editor then
        ⟨s, [], some .notEditor⟩
      else
        match pick with
        | none => ⟨s, [], none⟩
        | some t => ⟨s, [.transferAccess s.myUsername (some t)], none⟩
  | .requestAccess, s =>
      if s.inSession = false then ⟨s, [], some .notInSession⟩
      else if s.myUsername = s.editor then ⟨s, [], some .alreadyEditor⟩
      else ⟨s, [.requestAccessMsg s.editor s.myUsername], none⟩
  | .forceAccess, s =>
      if s.inSession = false then ⟨s, [], some .notInSession⟩
      else if s.myUsername = s.editor then ⟨s, [], some .alreadyEditor⟩
      else ⟨s, [.transferAccess s.editor s.myUsername], none⟩
  | .leaveSession myId, s =>
      ⟨initState, [.leaveMsg s.myUsername myId], none⟩
  | .endSession, s =>
      ⟨s, [.endSessionMsg], none⟩

/-- Claim C2: invoked by a peer that is not the current editor (or not
in a session), `Give Access` is rejected with the NotEditor error, the
whole local state — host, editor, users, attribution map, `inSession`,
and everything else — is unchanged, and no Token Transfer Event is
broadcast. -/
theorem giveAccess_rejected_for_non_editor (s : PeerState)
    (pick : Option String)
    (hne : s.inSession = false ∨ s.myUsername ≠ s.editor) :
    runOp (.giveAccess pick) s = ⟨s, [], some .notEditor⟩ := by
  simp only [runOp]
  rw [if_pos hne]

/-- Witness for C2: in a session hosted by "alice", the guest "bob"
(who is not the editor) invokes Give Access picking "alice"; the call is
rejected with NotEditor, the state is returned unchanged, and nothing is
sent. -/
theorem giveAccess_rejected_for_non_editor_instance :
    runOp (.giveAccess (some "alice"))
      { inSession := true, host := some "alice", editor := some "alice"
        users := ["alice", "bob"], idToUsername := []
        lastEditErrorTime := 0, myUsername := some "bob"
        liveshare := some 1, myNotifier := some 2 } =
      ⟨{ inSession := true, host := some "alice", editor := some "alice"
         users := ["alice", "bob"], idToUsername := []
         lastEditErrorTime := 0, myUsername := some "bob"
         liveshare := some 1, myNotifier := some 2 }, [], some .notEditor⟩ :=
  giveAccess_rejected_for_non_editor _ _ (Or.inr (by decide))

/-! ### Claim C7: failure paths and the session core -/

/-- The failure / user-cancellation paths of each command: the guard
conditions of its early returns and its abandoned prompts.  `Leave` and
`End` have no failure path in the code (they run unconditionally). -/
def opFails : Op → PeerState → Prop
  | .hostSession ls isHostRole svc uname, s =>
      s.inSession = true ∨ ls = none ∨ isHostRole = false ∨ svc = none ∨
        uname = none
  | .joinSession ls isGuestRole uname proxy _, s =>
      s.inSession = true ∨ ls = none ∨ isGuestRole = false ∨ uname = none ∨
        proxy = none
  | .giveAccess pick, s =>
      s.inSession = false ∨ s.myUsername ≠ s.editor ∨ pick = none
  | .requestAccess, s => s.inSession = false ∨ s.myUsername = s.editor
  | .forceAccess, s => s.inSession = false ∨ s.myUsername = s.editor
  | .leaveSession _, _ => False
  | .endSession, _ => False

/-- The replicated Session State portion of a peer's state: `inSession`,
`host`, `editor`, `users` and the attribution map (the fields the
protocol events replicate, as opposed to the per-peer `myUsername`,
timer and transport handles). -/
def sessionCore (s : PeerState) :
    Bool × Option String × Option String × List String × List (Nat × String) :=
  (s.inSession, s.host, s.editor, s.users, s.idToUsername)

/-- Claim C7 (amended): every failure or user-cancellation path of every
coordinator command leaves the replicated Session State — `inSession`,
`host`, `editor`, `users`, and the attribution map — unchanged and
broadcasts nothing; the per-peer bindings `myUsername`, `liveshare` and
`myNotifier`, however, may retain assignments made before the failure
point. -/
theorem failed_op_preserves_session_core (op : Op) (s : PeerState)
    (hf : opFails op s) :
    sessionCore (runOp op s).state = sessionCore s ∧ (runOp op s).sent = [] := by
  cases op with
  | hostSession ls isHostRole svc uname =>
      by_cases hin : s.inSession
      · simp [runOp, hin]
      · cases ls with
        | none => simp [runOp, hin, sessionCore]
        | some lsv =>
          by_cases hr : isHostRole
          · cases svc with
            | none => simp [runOp, hin, hr, sessionCore]
            | some sv =>
              cases uname with
              | none => simp [runOp, hin, hr, sessionCore]
              | some u =>
                exfalso
                rcases hf with h | h | h | h | h <;> simp_all
          · simp [runOp, hin, hr, sessionCore]
  | joinSession ls isGuestRole uname proxy myId =>
      by_cases hin : s.inSession
      · simp [runOp, hin]
      · cases ls with
        | none => simp [runOp, hin, sessionCore]
        | some lsv =>
          by_cases hr : isGuestRole
          · cases uname with
            | none => simp [runOp, hin, hr, sessionCore]
            | some u =>
              cases proxy with
              | none => simp [runOp, hin, hr, sessionCore]
              | some p =>
                exfalso
                rcases hf with h | h | h | h | h <;> simp_all
          · simp [runOp, hin, hr, sessionCore]
  | giveAccess pick =>
      by_cases hg : s.inSession = false ∨ s.myUsername ≠ s.editor
      · simp only [runOp]
        rw [if_pos hg]
        exact ⟨rfl, rfl⟩
      · have hpick : pick = none := by
          rcases hf with h | h | h
          · exact absurd (Or.inl h) hg
          · exact absurd (Or.inr h) hg
          · exact h
        simp only [runOp, hpick]
        rw [if_neg hg]
        exact ⟨rfl, rfl⟩
  | requestAccess =>
      rcases hf with h | h
      · simp [runOp, h]
      · by_cases hin : s.inSession = false
        · simp [runOp, hin]
        · simp [runOp, hin, h]
  | forceAccess =>
      rcases hf with h | h
      · simp [runOp, h]
      · by_cases hin : s.inSession = false
        · simp [runOp, hin]
        · simp [runOp, hin, h]
  | leaveSession myId => exact hf.elim
  | endSession => exact hf.elim

/-- Witness for C7 (amended): hosting with the username prompt abandoned
is a cancellation path, and it leaves the replicated Session State of
the fresh peer unchanged with nothing broadcast. -/
theorem failed_op_preserves_session_core_instance :
    sessionCore (runOp (.hostSession (some 1) true (some 2) none) initState).state =
      sessionCore initState ∧
    (runOp (.hostSession (some 1) true (some 2) none) initState).sent = [] :=
  failed_op_preserves_session_core (.hostSession (some 1) true (some 2) none)
    initState (Or.inr (Or.inr (Or.inr (Or.inr rfl))))

/-- Counterexample to C7 as stated: the claim also demands that
`myUsername` and the transport/notifier handles be exactly as before the
attempt, but `hostSession` assigns `myNotifier` (and `liveshare`) before
the username prompt, so abandoning the prompt leaves them changed; and
`joinSession` assigns `myUsername` before the proxy lookup, so a
NoSessionFound failure leaves it changed. -/
theorem failed_op_changes_peer_state :
    (runOp (.hostSession (some 1) true (some 2) none) initState).state.myNotifier =
      some 2 ∧
    initState.myNotifier = none ∧
    (runOp (.joinSession (some 1) true (some "bob") none none) initState).state.myUsername =
      some "bob" ∧
    initState.myUsername = none ∧
    (runOp (.hostSession (some 1) true (some 2) none) initState).state ≠ initState := by
  refine ⟨rfl, rfl, rfl, rfl, ?_⟩
  decide

/-! ### Claim C6: the Request Access payload -/

/-- Claim C6 is a code bug: the spec (and the handler's own user-facing
messages) require the Request Event to carry the requester in its `from`
field, but `onetype.requestAccess` broadcasts
`{ from: editor, to: myUsername }` — the current editor in `from` and
the requester in `to`.  Evaluated at the failing input (session hosted
by "alice" the editor, requester "bob"): the broadcast names "alice",
not the requester, in `from`. -/
theorem requestAccess_sends_editor_in_from_field :
    (runOp .requestAccess
      { inSession := true, host := some "alice", editor := some "alice"
        users := ["alice", "bob"], idToUsername := []
        lastEditErrorTime := 0, myUsername := some "bob"
        liveshare := some 1, myNotifier := some 2 }).sent =
      [.requestAccessMsg (some "alice") (some "bob")] ∧
    some "alice" ≠ some "bob" := by
  refine ⟨?_, by decide⟩
  rfl

/-! ### The host's join handler and the guest's initiateJoin handler -/

/-- The host's `service.onNotify('join')` handler.  The guest's join
payload is `{ username, peerNumber: getMyId() }`; the handler reads only
`data.username` — the `peerNumber` field is never stored into
`idToUsername` (nothing in the networked variant ever writes to that
map).  A username already in `users` is silently ignored: no state
change, no broadcast, and no error of any kind is produced. -/
def hostJoin (s : PeerState) (uname : String) (peerNumber : Option Nat) :
    RunResult :=
  if uname ∈ s.users then ⟨s, [], none⟩
  else
    let s1 := { s with users := s.users ++ [uname] }
    ⟨s1, [.initiateJoin s1.host s1.editor s1.users s1.idToUsername], none⟩

/-- The payload of an `initiateJoin` broadcast, as destructured by the
guest handler: `({ host, editor, users: updUsers, idToUsername } = data)`. -/
structure JoinPayload where
  host : Option String
  editor : Option String
  users : List String
  idToUsername : List (Nat × String)
deriving DecidableEq, Repr

/-- The guest's `proxy.onNotify('initiateJoin')` handler: it overwrites
`host`, `editor`, `users` and `idToUsername` with the broadcast payload
and sets `inSession = true`, with no check of any kind (in particular no
check that the guest's own username is in the received roster). -/
def guestInitiateJoin (d : JoinPayload) (s : PeerState) : PeerState :=
  { s with
    host := d.host
    editor := d.editor
    users := d.users
    idToUsername := d.idToUsername
    inSession := true }

/-- Claim C3 counterexample: the claim says a join attempt with a taken
username fails with a NameTaken error surfaced to the joiner, but in the
networked variant the host's join handler silently drops the request —
its complete output is the unchanged state, an empty list of messages,
and no notice, so no error ever reaches the joiner. -/
theorem duplicate_join_silently_ignored_instance :
    hostJoin
      { inSession := true, host := some "alice", editor := some "alice"
        users := ["alice", "bob"], idToUsername := []
        lastEditErrorTime := 0, myUsername := some "alice"
        liveshare := some 1, myNotifier := some 2 } "bob" (some 2) =
      ⟨{ inSession := true, host := some "alice", editor := some "alice"
         users := ["alice", "bob"], idToUsername := []
         lastEditErrorTime := 0, myUsername := some "alice"
         liveshare := some 1, myNotifier := some 2 }, [], none⟩ := by
  decide

/-! ### The file-lock variant -/

/-- The structured record persisted at the well-known lock path in the
file-lock variants: `{ owner, users, requests }`. -/
structure LockFile where
  owner : String
  users : List String
  requests : List String
deriving DecidableEq, Repr

/-- Outcome of one iteration of the file-lock `onetype.joinSession`
prompt loop: `readFailed` is the "Failed to join session" early return
when the lock cannot be read back, `nameTaken` the "Username already
taken" error (after which the loop prompts again), and `joined` carries
the lock written on success. -/
inductive JoinLockOutcome where
  | readFailed
  | nameTaken
  | joined (newLock : LockFile)
deriving DecidableEq, Repr

/-- One iteration of the file-lock variant's join loop, from the
re-read lock and the entered name: a name already in `users` is rejected
with the NameTaken error and nothing is written; otherwise the name is
appended to `users` and the lock is written back. -/
def joinSessionStep (lock : Option LockFile) (name : String) :
    JoinLockOutcome :=
  match lock with
  | none => .readFailed
  | some l =>
      if name ∈ l.users then .nameTaken
      else .joined { l with users := l.users ++ [name] }

/-- Claim C3 (amended): a join attempt carrying a username already in
`users` leaves every peer's Session State unchanged, but the error
surfacing differs by variant: the networked host silently ignores the
request — no initiateJoin broadcast, no notice, so the joiner never
learns of the NameTaken condition — while the file-lock variant rejects
the attempt with the NameTaken error (surfaced to the joiner after it
reads the shared lock) and does not write the lock. -/
theorem duplicate_join_state_unchanged (s : PeerState) (l : LockFile)
    (u : String) (hs : u ∈ s.users) (hl : u ∈ l.users) :
    hostJoin s u (some 2) = ⟨s, [], none⟩ ∧
    joinSessionStep (some l) u = .nameTaken := by
  constructor
  · simp only [hostJoin]
    rw [if_pos hs]
  · simp only [joinSessionStep]
    rw [if_pos hl]

/-- Witness for C3 (amended): "bob" attempts to join a networked session
whose roster already contains "bob", and a file-lock session whose lock
already lists "bob". -/
theorem duplicate_join_state_unchanged_instance :
    hostJoin
      { inSession := true, host := some "alice", editor := some "alice"
        users := ["alice", "bob"], idToUsername := []
        lastEditErrorTime := 0, myUsername := some "alice"
        liveshare := some 1, myNotifier := some 2 } "bob" (some 2) =
      ⟨{ inSession := true, host := some "alice", editor := some "alice"
         users := ["alice", "bob"], idToUsername := []
         lastEditErrorTime := 0, myUsername := some "alice"
         liveshare := some 1, myNotifier := some 2 }, [], none⟩ ∧
    joinSessionStep (some ⟨"alice", ["alice", "bob"], []⟩) "bob" = .nameTaken :=
  duplicate_join_state_unchanged _ ⟨"alice", ["alice", "bob"], []⟩ "bob"
    (by decide) (by decide)

/-! ### Claim C9: ungraceful departure -/

/-- Lookup in the attribution map, as `idToUsername.get(peerNumber)`:
`none` models the JavaScript `undefined` result for a missing key. -/
def mapLookup (m : List (Nat × String)) (k : Nat) : Option String :=
  (m.find? (fun p => p.1 == k)).map (fun p => p.2)

/-- The Leave Event the host's `liveshare.onDidChangePeers` handler
synthesizes for a removed peer:
`{ username: idToUsername.get(peer.peerNumber), id: peer.peerNumber }`. -/
def synthLeaveMsg (s : PeerState) (removedPeer : Nat) : Msg :=
  .leaveMsg (mapLookup s.idToUsername removedPeer) (some removedPeer)

/-- Claim C9 is a code bug: the guest sends its `peerNumber` in the join
payload precisely so the host can attribute departures, but the host's
join handler never stores it, so `idToUsername` stays empty on the host.
At the failing input — "alice" hosts, the guest "bob" (peer 2) joins and
then vanishes — the synthesized Leave Event carries `username:
undefined` (`none`), and applying it removes nobody: the departed "bob"
stays in `users` and the editor is unchanged, contradicting the claimed
convergence. -/
theorem ungraceful_departure_leave_removes_nobody :
    (hostJoin (hostBootstrap "alice" initState) "bob" (some 2)).state.idToUsername =
      [] ∧
    synthLeaveMsg (hostJoin (hostBootstrap "alice" initState) "bob" (some 2)).state 2 =
      .leaveMsg none (some 2) ∧
    (applyEvent (.leave none (some 2))
        (hostJoin (hostBootstrap "alice" initState) "bob" (some 2)).state).users =
      ["alice", "bob"] ∧
    (applyEvent (.leave none (some 2))
        (hostJoin (hostBootstrap "alice" initState) "bob" (some 2)).state).editor =
      some "alice" := by
  decide

/-! ### Claim C10: the guest initiateJoin handler is unconditional -/

/-- Claim C10: a guest awaiting admission treats any `initiateJoin`
broadcast unconditionally — the handler overwrites `host`, `editor`,
`users` and the attribution map with the broadcast payload and sets
`inSession = true`, whatever the payload and previous state; and
consequently a guest can enter the Active state with a roster that does
not contain its own username, as when "bob" (whose own join request is
still unprocessed, or was silently dropped) receives the broadcast
triggered by "carol"'s join. -/
theorem guest_initiateJoin_unconditional_overwrite :
    (∀ (d : JoinPayload) (s : PeerState),
      (guestInitiateJoin d s).host = d.host ∧
      (guestInitiateJoin d s).editor = d.editor ∧
      (guestInitiateJoin d s).users = d.users ∧
      (guestInitiateJoin d s).idToUsername = d.idToUsername ∧
      (guestInitiateJoin d s).inSession = true ∧
      (guestInitiateJoin d s).myUsername = s.myUsername) ∧
    ((guestInitiateJoin
        ⟨some "alice", some "alice", ["alice", "carol"], []⟩
        { initState with myUsername := some "bob" }).inSession = true ∧
     (guestInitiateJoin
        ⟨some "alice", some "alice", ["alice", "carol"], []⟩
        { initState with myUsername := some "bob" }).myUsername = some "bob" ∧
     "bob" ∉ (guestInitiateJoin
        ⟨some "alice", some "alice", ["alice", "carol"], []⟩
        { initState with myUsername := some "bob" }).users) := by
  refine ⟨fun d s => ⟨rfl, rfl, rfl, rfl, rfl, rfl⟩, ?_⟩
  decide

/-! ### Claim C8: save veto in the file-lock variants -/

/-- The `hasEditLock()` helper of the file-lock variants: true exactly
when the lock record was readable and its `owner` equals the local
username (a missing or unparsable lock file reads as `null`, which is
falsy). -/
def hasEditLock (lock : Option LockFile) (userName : String) : Bool :=
  match lock with
  | none => false
  | some l => l.owner == userName

/-- Outcome of the save-intent interception. -/
inductive SaveOutcome where
  | allowed
  | blocked (message : String)
deriving DecidableEq, Repr

/-- The `onWillSaveTextDocument` handler of both file-lock variants:
outside a session, or holding the lock, the save proceeds; otherwise the
save promise is rejected and the denial message is shown. -/
def onWillSaveTextDocument (isSessionActive : Bool) (lock : Option LockFile)
    (userName : String) : SaveOutcome :=
  if !isSessionActive || hasEditLock lock userName then .allowed
  else .blocked "Save blocked. You do not hold the lock."

/-- Claim C8: every peer that is in an active session and does not hold
the lock has its save attempt vetoed at save-intent time with an
explicit denial message (this interception is a separate handler from
the change-detection warning path, so it applies independently of and in
addition to it). -/
theorem save_blocked_for_non_lock_holder (isSessionActive : Bool)
    (lock : Option LockFile) (userName : String)
    (hact : isSessionActive = true)
    (hnl : hasEditLock lock userName = false) :
    onWillSaveTextDocument isSessionActive lock userName =
      .blocked "Save blocked. You do not hold the lock." := by
  simp [onWillSaveTextDocument, hact, hnl]

/-- Witness for C8: an active session whose lock is owned by "alice";
the non-owner "bob"'s save is blocked with the denial message. -/
theorem save_blocked_for_non_lock_holder_instance :
    onWillSaveTextDocument true (some ⟨"alice", ["alice", "bob"], []⟩) "bob" =
      .blocked "Save blocked. You do not hold the lock." :=
  save_blocked_for_non_lock_holder true (some ⟨"alice", ["alice", "bob"], []⟩)
    "bob" rfl (by decide)

end OneType
